import Mathlib

/-!
Verification of the Selenium MCP server specification against a shallow
embedding of the repository source (`server.py`, `openai_client.py`).

Pure fragments of the Python code are translated into executable Lean
definitions.  External collaborators (the live Selenium driver, the OpenAI
model endpoint, the filesystem) are modeled as explicit oracle parameters:
each definition takes the outcome of the external interaction as an
argument and reproduces the branching of the source around it.
-/

/-! ### Decimal rendering of naturals

Helper development used to reason about the strings produced by Python
f-string interpolation of integers, which this embedding models with
`toString : Nat → String` (both render the decimal form).  `decChars` is the
plain decimal digit list; it is proved equal to the fuel-based
`Nat.toDigitsCore` used by `Nat.repr`, and injectivity of `toString` on `Nat`
follows via the parser `parseDec`.
-/

def decChars (n : Nat) : List Char :=
  if n < 10 then [Nat.digitChar n]
  else decChars (n / 10) ++ [Nat.digitChar (n % 10)]
decreasing_by exact Nat.div_lt_self (by omega) (by omega)

def decDigitVal (c : Char) : Nat := c.toNat - 48

def parseDec (l : List Char) : Nat :=
  l.foldl (fun acc c => 10 * acc + decDigitVal c) 0

/-! ### Agent loop (`openai_client.py`, `MCPOpenAIClient.process_query`)

The loop alternates model rounds and tool dispatches.  The model endpoint is
an oracle `hasCalls : Nat → Bool` telling whether the n-th model response
(1-based) contains at least one function call.  `process_query_loop` mirrors
the `while True` loop: `iterations` is incremented, compared against
`max_iterations`, and the `RuntimeError` raise is modeled by the `raised`
outcome carrying the exact message built by the source (including its stray
closing parenthesis) and the number of completed model rounds.
-/

inductive LoopOutcome where
  | raised (message : String) (modelRounds : Nat)
  | completed (modelRounds : Nat)
deriving DecidableEq

def max_iterations_message (maxIterations : Nat) : String :=
  "Max iterations " ++ toString maxIterations ++ " reached)"

def process_query_loop (hasCalls : Nat → Bool) (maxIterations : Nat)
    (iterations : Nat) : LoopOutcome :=
  let iters := iterations + 1
  if _h : maxIterations < iters then
    .raised (max_iterations_message maxIterations) iterations
  else
    if hasCalls iters then process_query_loop hasCalls maxIterations iters
    else .completed iters
termination_by maxIterations - iterations
decreasing_by omega

/-- A turn of the conversation record kept in `self.messages`. -/
inductive Turn where
  | user_message (content : String)
  | assistant_message (content : String)
  | function_call (call_id name arguments : String)
  | function_call_output (call_id output : String)
  | user_image (caption image_url : String)

/-- Model of the Python `str.startswith` test on the character sequence. -/
def py_startswith (s pre : String) : Bool := pre.data.isPrefixOf s.data

/-- Folding of `result.content` texts into one output string:
`output[0] if len(output) == 1 else "[" + ", ".join(output) + "]"`. -/
def join_tool_output : List String → String
  | [t] => t
  | l => "[" ++ String.intercalate ", " l ++ "]"

/-- Turns appended for one dispatched tool call, given the text pieces of the
tool result.  If the folded output starts with `"base64,"` the output turn is
replaced by a placeholder and a user turn carrying the data URI plus caption
is appended after it; otherwise a single plain output turn is appended. -/
def append_tool_result (call_id : String) (texts : List String) : List Turn :=
  let output := join_tool_output texts
  if py_startswith output "base64," then
    [Turn.function_call_output call_id
       "Image passed in the next message as an input_image",
     Turn.user_image ("Image returned by function with call id " ++ call_id)
       ("data:image/png;" ++ output)]
  else
    [Turn.function_call_output call_id output]

/-! ### HTML documents (`server.py`, BeautifulSoup values)

A parsed document is a list of root nodes (`soup.contents`); a node is a
`NavigableString` or a `Tag` with name, attributes and children.  Python
truthiness as used by the `if trimmed:` checks: a `NavigableString` is a
`str` subclass (falsy iff empty), and a bs4 `Tag` is always truthy (its
`__bool__` returns `True` even with no contents).
-/

inductive HtmlNode where
  | text (s : String)
  | tag (name : String) (attrs : List (String × String)) (children : List HtmlNode)

def truthy : HtmlNode → Bool
  | .text s => s ≠ ""
  | .tag _ _ _ => true

mutual

/-- `trim_html_tag_to_depth`: `None` for `depth <= 0`; a `NavigableString` is
returned as-is; a tag is cloned shallowly (`clone_tag_shallow` keeps name and
attributes) and its children are recursively trimmed at `depth - 1` only when
`depth > 1`, appending only truthy results. -/
def trim_html_tag_to_depth (n : HtmlNode) (depth : Int) : Option HtmlNode :=
  if depth ≤ 0 then none
  else
    match n with
    | .text s => some (.text s)
    | .tag name attrs children =>
        some (.tag name attrs
          (if 1 < depth then trim_html_children children (depth - 1) else []))

/-- The `for child in tag.children` loop of `trim_html_tag_to_depth`,
appending each trimmed child only when it is truthy. -/
def trim_html_children (l : List HtmlNode) (depth : Int) : List HtmlNode :=
  match l with
  | [] => []
  | c :: rest =>
      match trim_html_tag_to_depth c depth with
      | some t =>
          if truthy t then t :: trim_html_children rest depth
          else trim_html_children rest depth
      | none => trim_html_children rest depth

end

/-- `extract_html_to_depth` over the parsed contents: with `depth = None` the
source returns the serialization of the whole soup (a structurally equal
clone); otherwise each root child is trimmed and kept when truthy.  The
`prettify` flag only changes string formatting, not structure, and is not
modeled. -/
def extract_html_to_depth (contents : List HtmlNode) (depth : Option Int) :
    List HtmlNode :=
  match depth with
  | none => contents
  | some d =>
      contents.filterMap (fun c =>
        match trim_html_tag_to_depth c d with
        | some t => if truthy t then some t else none
        | none => none)

mutual

/-- Nesting height of a node: a root-level childless node has height 1. -/
def nodeHeight : HtmlNode → Nat
  | .text _ => 1
  | .tag _ _ children => 1 + forestHeight children

def forestHeight : List HtmlNode → Nat
  | [] => 0
  | c :: rest => max (nodeHeight c) (forestHeight rest)

end

/-! ### XPath construction (`get_page_summary.build_xpath`) -/

/-- Whether a sibling node is matched by `find_previous_siblings(el.name)`:
only tags with exactly that name match. -/
def matches_tag_name (name : String) : HtmlNode → Bool
  | .text _ => false
  | .tag n _ _ => n == name

/-- `len(el.find_previous_siblings(el.name))` for the element at position `i`
of the sibling list. -/
def prev_siblings_same_tag (siblings : List HtmlNode) (i : Nat) (name : String) : Nat :=
  ((siblings.take i).filter (matches_tag_name name)).length

/-- One path segment: `f"{el.name}{index}"` where
`index = f"[{len(sibs) + 1}]" if sibs else ""`. -/
def xpath_segment (siblings : List HtmlNode) (i : Nat) (name : String) : String :=
  let count := prev_siblings_same_tag siblings i name
  name ++ (if count ≠ 0 then "[" ++ toString (count + 1) ++ "]" else "")

/-- Segments of the upward walk of `build_xpath`, presented top-down along a
path of child indices from the document root (the walk stops at the
`[document]` soup object, whose children are `doc`). -/
def build_xpath_segments : List HtmlNode → List Nat → List String
  | _, [] => []
  | siblings, i :: rest =>
      match siblings[i]? with
      | some (.tag name _ children) =>
          xpath_segment siblings i name :: build_xpath_segments children rest
      | _ => []

/-- `build_xpath`: `"/" + "/".join(path)`. -/
def build_xpath (doc : List HtmlNode) (path : List Nat) : String :=
  "/" ++ String.intercalate "/" (build_xpath_segments doc path)

/-! ### Page summary (`get_page_summary`)

`soup.find_all(["form", "button", "a", "h1", "h2", "h3", "p", "span"])`
yields the matched tags in document order; each carries the XPath string
computed for it by `build_xpath` (the key used for the live visibility
probe) and an abstract payload standing for its extracted text/attributes.
The live driver visibility probe is the oracle `visible : String → Bool`
(the per-call `visibility_cache` only memoizes this pure oracle and is
therefore transparent).  The `detailed` flag only adds extra per-entry
fields (xpath, depth, visible, aria label, role, parent) and the nested
`inputs`/`buttons` of forms are sub-entries of a form entry; neither affects
which elements are selected, their order, or their indices, so they are not
modeled.
-/

structure FoundTag where
  name : String
  xpath : String
  payload : Nat
deriving DecidableEq

/-- The `data["type"]` conditional chain. -/
def element_type (tagName : String) : String :=
  if tagName = "form" then "form"
  else if tagName = "button" then "button"
  else if tagName = "a" then "link"
  else "text"

/-- `order = {"button": 0, "link": 1, "form": 2, "text": 3}` with the
`float("inf")` default mapped to 4; `element_type` only produces the four
listed types, and any value above 3 sorts after them just as infinity does. -/
def type_order (t : String) : Nat :=
  if t = "button" then 0
  else if t = "link" then 1
  else if t = "form" then 2
  else if t = "text" then 3
  else 4

/-- An element survives the two `continue` filters: the `filter_type` check
and, when `only_visible_elements` is set, the visibility probe. -/
def summary_keep (filter_type : String) (only_visible_elements : Bool)
    (visible : String → Bool) (t : FoundTag) : Bool :=
  (filter_type == "" || filter_type == element_type t.name) &&
  (!only_visible_elements || visible t.xpath)

structure SummaryEntry where
  index : String
  etype : String
  tag : FoundTag
deriving DecidableEq

/-- Stable insertion into a sorted list: an element stops before the first
element of strictly greater or equal key, keeping original order on ties. -/
def stable_insert {α : Type} (key : α → Nat) (e : α) : List α → List α
  | [] => [e]
  | x :: xs => if key e ≤ key x then e :: x :: xs else x :: stable_insert key e xs

/-- Model of the stable Python `sorted(summary, key=...)`: any stable sort
computes the same list, so a stable insertion sort is used. -/
def stable_sort_by_key {α : Type} (key : α → Nat) : List α → List α
  | [] => []
  | x :: xs => stable_insert key x (stable_sort_by_key key xs)

/-- The index-assignment loop:
`for i, data in enumerate(summary): data["index"] = f"{i + 1}/{len(summary)}"`. -/
def assign_indices (total : Nat) : Nat → List SummaryEntry → List SummaryEntry
  | _, [] => []
  | i, e :: rest =>
      { e with index := toString (i + 1) ++ "/" ++ toString total } ::
        assign_indices total (i + 1) rest

/-- The entries accumulated by the scanning loop, in document order, after
the `filter_type` and visibility `continue` filters (the `index` field is
the `None` placeholder, filled later). -/
def summary_entries (doc : List FoundTag) (visible : String → Bool)
    (filter_type : String) (only_visible_elements : Bool) : List SummaryEntry :=
  (doc.filter (summary_keep filter_type only_visible_elements visible)).map
    (fun t => { index := "", etype := element_type t.name, tag := t })

/-- `sorted(summary, key=lambda x: order.get(x["type"], float("inf")))`. -/
def summary_sorted (doc : List FoundTag) (visible : String → Bool)
    (filter_type : String) (only_visible_elements : Bool) : List SummaryEntry :=
  stable_sort_by_key (fun e => type_order e.etype)
    (summary_entries doc visible filter_type only_visible_elements)

/-- `summarize_forms_buttons_links_and_text`: scan in document order, filter,
reorder by type priority, then assign `"position/total"` indices over the
whole filtered set. -/
def summarize_forms_buttons_links_and_text (doc : List FoundTag)
    (visible : String → Bool) (filter_type : String)
    (only_visible_elements : Bool) : List SummaryEntry :=
  assign_indices (summary_sorted doc visible filter_type only_visible_elements).length 0
    (summary_sorted doc visible filter_type only_visible_elements)

/-- `get_page_summary`: the summary sliced as
`summary[skip_elements : skip_elements + max_elements]`. -/
def get_page_summary (doc : List FoundTag) (visible : String → Bool)
    (skip_elements max_elements : Nat) (filter_type : String)
    (only_visible_elements : Bool) : List SummaryEntry :=
  ((summarize_forms_buttons_links_and_text doc visible filter_type
      only_visible_elements).drop skip_elements).take max_elements

/-! ### Locator strategies and element operations (`server.py`)

`BY_OPTIONS` collects the non-dunder, non-callable attributes of Selenium's
`By` class in declaration order.  Each element operation validates the
strategy first; the subsequent live-driver interaction is an oracle argument
describing which branch of the `try`/`except` runs (an element found with a
payload, a `TimeoutException`, or another exception caught by the generic
handler).
-/

def BY_OPTIONS : List String :=
  ["id", "xpath", "link text", "partial link text", "name", "tag name",
   "class name", "css selector"]

def invalid_by_message (by_ : String) : String :=
  "Invalid by: " ++ by_ ++ ". Must be one of: " ++ String.intercalate ", " BY_OPTIONS

inductive WaitOutcome where
  | found (payload : String)
  | timeout
  | failure (e : String)

def click (locator by_ : String) (outcome : WaitOutcome) : String :=
  if !BY_OPTIONS.contains by_ then invalid_by_message by_
  else
    match outcome with
    | .found _ => "Clicked element: " ++ locator
    | .timeout => "Timeout waiting for element " ++ locator
    | .failure e => "Error clicking element: " ++ e

/-- `type_text` (the success message wraps the text in single quote
characters in the source; the quotes are omitted here). -/
def type_text (locator text_ : String) (_clear _press_enter _is_password : Bool)
    (by_ : String) (outcome : WaitOutcome) : String :=
  if !BY_OPTIONS.contains by_ then invalid_by_message by_
  else
    match outcome with
    | .found _ => "Typed " ++ text_ ++ " into " ++ locator
    | .timeout => "Timeout waiting for element " ++ locator
    | .failure e => "Error typing text: " ++ e

def clear_text (locator by_ : String) (outcome : WaitOutcome) : String :=
  if !BY_OPTIONS.contains by_ then invalid_by_message by_
  else
    match outcome with
    | .found _ => "Cleared text from " ++ locator
    | .timeout => "Timeout waiting for element " ++ locator
    | .failure e => "Error clearing text: " ++ e

def get_element_text (locator by_ : String) (outcome : WaitOutcome) : String :=
  if !BY_OPTIONS.contains by_ then invalid_by_message by_
  else
    match outcome with
    | .found payload => payload
    | .timeout => "Timeout waiting for element " ++ locator
    | .failure e => "Error getting text: " ++ e

inductive AttrOutcome where
  | found (value : Option String)
  | timeout
  | failure (e : String)

/-- `get_element_attribute`: `element.get_attribute(attribute) or ""`. -/
def get_element_attribute (locator _attribute by_ : String)
    (outcome : AttrOutcome) : String :=
  if !BY_OPTIONS.contains by_ then invalid_by_message by_
  else
    match outcome with
    | .found v => v.getD ""
    | .timeout => "Timeout waiting for element " ++ locator
    | .failure e => "Error getting attribute: " ++ e

inductive FindOutcome where
  | found (infos : List (List (String × String)))
  | timeout
  | failure (e : String)

/-- `find_elements`: result dictionaries are association lists; the invalid
strategy case returns a one-entry list holding an error dictionary. -/
def find_elements (_locator by_ : String) (max_elements skip_elements : Nat)
    (outcome : FindOutcome) : List (List (String × String)) :=
  if !BY_OPTIONS.contains by_ then [[("error", invalid_by_message by_)]]
  else
    match outcome with
    | .found infos => (infos.drop skip_elements).take max_elements
    | .timeout => []
    | .failure e => [[("error", e)]]

inductive CountOutcome where
  | counted (n : Nat)
  | failure (e : String)

/-- `count_elements`: returns the sentinel `-1` on an invalid strategy and
`0` when the driver raises. -/
def count_elements (_locator by_ : String) (outcome : CountOutcome) : Int :=
  if !BY_OPTIONS.contains by_ then -1
  else
    match outcome with
    | .counted n => (n : Int)
    | .failure _ => 0

inductive ExistsOutcome where
  | found
  | missing

/-- `element_exists`: returns `False` on an invalid strategy. -/
def element_exists (_locator by_ : String) (outcome : ExistsOutcome) : Bool :=
  if !BY_OPTIONS.contains by_ then false
  else
    match outcome with
    | .found => true
    | .missing => false

/-! ### Recording, persistence and replay (`server.py`)

A recorded action is the operation name with its ordered argument mapping
(`self` excluded).  Python stores each as a 2-tuple and `json.dump` writes it
as a JSON array, which `json.load` returns as a 2-element list; tuple and
list both denote the same (name, arguments) pair and are modeled by one pair
type.  Argument values occurring in remembered actions are strings, ints and
bools.  The JSON text itself round-trips these values exactly, so the file
is modeled at the JSON value level.
-/

inductive JVal where
  | jstr (s : String)
  | jint (n : Int)
  | jbool (b : Bool)
deriving DecidableEq

abbrev RecordedAction := String × List (String × JVal)

inductive Json where
  | str (s : String)
  | num (n : Int)
  | bool (b : Bool)
  | arr (items : List Json)
  | obj (fields : List (String × Json))

def encode_jval : JVal → Json
  | .jstr s => .str s
  | .jint n => .num n
  | .jbool b => .bool b

/-- One `(operation_name, arguments)` pair as written by `json.dump`: a
two-element array of the name and the argument object, keys in insertion
order. -/
def encode_action (a : RecordedAction) : Json :=
  .arr [.str a.1, .obj (a.2.map (fun kv => (kv.1, encode_jval kv.2)))]

/-- `json.dump(self.sequence_recorded, f, ...)`. -/
def dump_recording (seq : List RecordedAction) : Json :=
  .arr (seq.map encode_action)

def decode_jval : Json → Option JVal
  | .str s => some (.jstr s)
  | .num n => some (.jint n)
  | .bool b => some (.jbool b)
  | _ => none

def decode_fields : List (String × Json) → Option (List (String × JVal))
  | [] => some []
  | (k, v) :: rest =>
      match decode_jval v, decode_fields rest with
      | some w, some ws => some ((k, w) :: ws)
      | _, _ => none

def decode_action : Json → Option RecordedAction
  | .arr [.str name, .obj fields] =>
      (decode_fields fields).map (fun fs => (name, fs))
  | _ => none

def decode_actions : List Json → Option (List RecordedAction)
  | [] => some []
  | j :: rest =>
      match decode_action j, decode_actions rest with
      | some a, some more => some (a :: more)
      | _, _ => none

/-- `json.load` of a recording file, read back as the action sequence. -/
def load_sequence : Json → Option (List RecordedAction)
  | .arr items => decode_actions items
  | _ => none

structure RecordingState where
  sequence_recorded : List RecordedAction
  last_action : Option RecordedAction

/-- `reset_recording`: clears both the last action and the sequence. -/
def reset_recording (_st : RecordingState) : RecordingState :=
  { sequence_recorded := [], last_action := none }

/-- `save_recording`: serializes the sequence to a file (returned as the
second component) and, when `reset_recording` is requested, clears the
state. -/
def save_recording (reset : Bool) (st : RecordingState) :
    RecordingState × Json :=
  let file := dump_recording st.sequence_recorded
  (if reset then reset_recording st else st, file)

/-- `load_recording`: replaces the in-memory sequence wholesale with the
deserialized file contents (a file that does not decode leaves the state
unchanged, modeling the caught exception path). -/
def load_recording (st : RecordingState) (file : Json) : RecordingState :=
  match load_sequence file with
  | some seq => { st with sequence_recorded := seq }
  | none => st

/-- An observable effect of replay: one executed step or one sleep. -/
inductive PlayEvent where
  | acted (a : RecordedAction)
  | slept (seconds : ℚ)
deriving DecidableEq

/-- The effects contributed by one successful step of `play_recording`:
the dispatched action followed by `time.sleep(delay)` when `delay > 0`
(the delay, a Python float, is modeled as an exact rational). -/
def play_step_events (delay : ℚ) (a : RecordedAction) : List PlayEvent :=
  PlayEvent.acted a :: (if 0 < delay then [PlayEvent.slept delay] else [])

/-- The `for action_name, arguments in self.sequence_recorded` loop;
`exec` is the oracle for `getattr(self, action_name)(**arguments)`, with
`.error e` modeling a raised exception (caught by the surrounding
`except`, which returns `f"Error playing recording: {str(e)}"`). -/
def play_recording_go (exec : RecordedAction → Except String Unit) (delay : ℚ) :
    List RecordedAction → List PlayEvent → List PlayEvent × String
  | [], trace => (trace, "Recording has been played")
  | a :: rest, trace =>
      match exec a with
      | .ok _ => play_recording_go exec delay rest (trace ++ play_step_events delay a)
      | .error e => (trace, "Error playing recording: " ++ e)

/-- `play_recording`: runs the recorded sequence, returning the trace of
performed effects and the result string. -/
def play_recording (exec : RecordedAction → Except String Unit) (delay : ℚ)
    (seq : List RecordedAction) : List PlayEvent × String :=
  play_recording_go exec delay seq []

/-- Replay oracle used in concrete runs: the operation named `bad` raises an
exception rendered as `boom`; every other operation succeeds. -/
def replay_exec_example : RecordedAction → Except String Unit :=
  fun a => if a.1 == "bad" then .error "boom" else .ok ()

/-! ### Browser selection (`change_browser`) -/

def BROWSER_OPTIONS : List String := ["chrome", "edge", "firefox", "ie", "safari"]

/-- Server state relevant to browser management: the configured browser name
and the live driver session, if any (abstracted to a handle). -/
structure ServerState where
  browser : String
  driver : Option Nat
deriving DecidableEq

/-- `quit_browser`: quits and clears the driver when one is live. -/
def quit_browser (st : ServerState) : ServerState × String :=
  match st.driver with
  | some _ =>
      ({ st with driver := none },
        st.browser.capitalize ++ " browser closed successfully")
  | none => (st, "No browser running")

/-- `change_browser`: validates the name against `BROWSER_OPTIONS` before any
teardown; on a valid name the old session is quit and the browser type
replaced. -/
def change_browser (st : ServerState) (browser : String) : ServerState × String :=
  if !BROWSER_OPTIONS.contains browser then
    (st, "Invalid browser: " ++ browser ++ ". Must be one of: " ++
      String.intercalate ", " BROWSER_OPTIONS)
  else
    let st1 := (quit_browser st).1
    ({ st1 with browser := browser }, "Browser set to " ++ browser)

/-! ### Concrete documents used to discharge hypotheses -/

def example_doc : List FoundTag :=
  [{ name := "a", xpath := "/html/body/a", payload := 0 },
   { name := "button", xpath := "/html/body/button", payload := 1 },
   { name := "p", xpath := "/html/body/p", payload := 2 }]

def example_contents : List HtmlNode :=
  [.tag "div" [] [.text "hi", .tag "p" [] []]]

def example_siblings : List HtmlNode :=
  [.tag "p" [] [], .tag "p" [] []]

/-!
## Theorems
-/

/-! ### Decimal rendering lemmas -/

theorem decDigitVal_digitChar : ∀ d : Nat, d < 10 → decDigitVal (Nat.digitChar d) = d := by
  decide

theorem toDigitsCore_eq_decChars :
    ∀ (fuel n : Nat) (acc : List Char), n < fuel →
    Nat.toDigitsCore 10 fuel n acc = decChars n ++ acc := by
  intro fuel
  induction fuel with
  | zero => intro n acc h; omega
  | succ fuel ih =>
    intro n acc h
    rw [Nat.toDigitsCore]
    by_cases h10 : n < 10
    · have hdiv : n / 10 = 0 := Nat.div_eq_of_lt h10
      simp only [hdiv, if_true]
      rw [decChars]
      simp only [h10, if_true]
      rw [Nat.mod_eq_of_lt h10]
      rfl
    · have hdiv : ¬ n / 10 = 0 := by
        have h1 : 10 ≤ n := by omega
        have h2 := Nat.le_div_iff_mul_le (k := 10) (by omega) |>.mpr
          (by omega : 1 * 10 ≤ n)
        omega
      simp only [hdiv, if_false]
      have hlt : n / 10 < fuel := by
        have h1 : n / 10 < n := Nat.div_lt_self (by omega) (by omega)
        omega
      rw [ih (n / 10) _ hlt]
      conv_rhs => rw [decChars]
      simp only [h10, if_false]
      rw [List.append_assoc]
      rfl

theorem parseDec_decChars (n : Nat) : parseDec (decChars n) = n := by
  induction n using Nat.strong_induction_on with
  | _ n ih =>
    rw [decChars]
    by_cases h10 : n < 10
    · simp only [h10, if_true]
      simp [parseDec, decDigitVal_digitChar n h10]
    · simp only [h10, if_false]
      unfold parseDec
      rw [List.foldl_append]
      have hdiv : n / 10 < n := Nat.div_lt_self (by omega) (by omega)
      have hih := ih (n / 10) hdiv
      unfold parseDec at hih
      rw [hih]
      simp only [List.foldl_cons, List.foldl_nil]
      rw [decDigitVal_digitChar (n % 10) (Nat.mod_lt _ (by omega))]
      omega

theorem natToString_injective (a b : Nat) (h : toString a = toString b) : a = b := by
  have ha : toString a = (decChars a).asString := by
    show Nat.repr a = _
    unfold Nat.repr Nat.toDigits
    rw [toDigitsCore_eq_decChars (a + 1) a [] (by omega)]
    simp
  have hb : toString b = (decChars b).asString := by
    show Nat.repr b = _
    unfold Nat.repr Nat.toDigits
    rw [toDigitsCore_eq_decChars (b + 1) b [] (by omega)]
    simp
  rw [ha, hb] at h
  have hdata : decChars a = decChars b := congrArg String.data h
  calc a = parseDec (decChars a) := (parseDec_decChars a).symm
    _ = parseDec (decChars b) := by rw [hdata]
    _ = b := parseDec_decChars b

/-! ### Agent-loop lemmas -/

theorem process_query_loop_raises (hasCalls : Nat → Bool) (maxIterations : Nat) :
    ∀ k iterations, maxIterations - iterations ≤ k → iterations ≤ maxIterations →
    (∀ n, iterations < n → n ≤ maxIterations → hasCalls n = true) →
    process_query_loop hasCalls maxIterations iterations =
      .raised (max_iterations_message maxIterations) maxIterations := by
  intro k
  induction k with
  | zero =>
    intro iterations h0 hle _
    have heq : iterations = maxIterations := by omega
    subst heq
    rw [process_query_loop]
    simp
  | succ k ih =>
    intro iterations hk hle hall
    rw [process_query_loop]
    by_cases hlt : maxIterations < iterations + 1
    · have heq : iterations = maxIterations := by omega
      subst heq
      simp
    · simp only [hlt, dite_false, dif_neg]
      rw [hall (iterations + 1) (by omega) (by omega)]
      simp only [if_true]
      exact ih (iterations + 1) (by omega) (by omega)
        (fun n hn1 hn2 => hall n (by omega) hn2)

theorem process_query_loop_completes (hasCalls : Nat → Bool) (maxIterations : Nat) :
    ∀ k iterations resolved, maxIterations - iterations ≤ k →
    iterations < resolved → resolved ≤ maxIterations →
    (∀ n, iterations < n → n < resolved → hasCalls n = true) →
    hasCalls resolved = false →
    process_query_loop hasCalls maxIterations iterations = .completed resolved := by
  intro k
  induction k with
  | zero =>
    intro iterations resolved h0 h1 h2 _ _
    omega
  | succ k ih =>
    intro iterations resolved hk h1 h2 hall hres
    rw [process_query_loop]
    have hlt : ¬ maxIterations < iterations + 1 := by omega
    simp only [hlt, dite_false, dif_neg]
    by_cases hr : iterations + 1 = resolved
    · rw [hr, hres]
      simp
    · rw [hall (iterations + 1) (by omega) (by omega)]
      simp only [if_true]
      exact ih (iterations + 1) resolved (by omega) (by omega) (by omega)
        (fun n hn1 hn2 => hall n (by omega) hn2) hres

/-- C2: with model responses containing at least one function call in every
round up to the ceiling, `process_query` raises the iteration-limit error
exactly after the ceiling-th model round (the outcome records exactly
`maxIterations` completed model calls, so no further model call happens);
and a query resolved in `resolved ≤ maxIterations` rounds never raises it. -/
theorem process_query_iteration_ceiling (hasCalls : Nat → Bool)
    (maxIterations resolved : Nat) :
    ((∀ n, 1 ≤ n → n ≤ maxIterations → hasCalls n = true) →
      process_query_loop hasCalls maxIterations 0 =
        LoopOutcome.raised (max_iterations_message maxIterations) maxIterations)
    ∧ (1 ≤ resolved → resolved ≤ maxIterations →
      (∀ n, 1 ≤ n → n < resolved → hasCalls n = true) →
      hasCalls resolved = false →
      process_query_loop hasCalls maxIterations 0 = LoopOutcome.completed resolved) := by
  constructor
  · intro hall
    exact process_query_loop_raises hasCalls maxIterations maxIterations 0
      (by omega) (by omega) (fun n h1 h2 => hall n (by omega) h2)
  · intro h1 h2 hall hres
    exact process_query_loop_completes hasCalls maxIterations maxIterations 0 resolved
      (by omega) (by omega) h2 (fun n hn1 hn2 => hall n (by omega) hn2) hres

/-- C2 witness: the default ceiling 10 with every round calling a function
raises after exactly 10 rounds; a query resolved at round 3 completes. -/
theorem process_query_iteration_ceiling_witness :
    process_query_loop (fun _ => true) 10 0 =
      LoopOutcome.raised (max_iterations_message 10) 10
    ∧ process_query_loop (fun n => decide (n < 3)) 10 0 = LoopOutcome.completed 3 :=
  ⟨(process_query_iteration_ceiling (fun _ => true) 10 1).1 (fun _ _ _ => rfl),
   (process_query_iteration_ceiling (fun n => decide (n < 3)) 10 3).2
     (by decide) (by decide) (fun n _ h2 => decide_eq_true h2) (by decide)⟩

/-! ### Tool-output folding lemmas -/

theorem py_startswith_bracket (x y : String) :
    py_startswith ("[" ++ x ++ y) "base64," = false := by
  simp [py_startswith, String.data_append, List.isPrefixOf]

/-- C3: a dispatched tool call whose single output string starts with
`"base64,"` appends exactly two turns — the output turn with a placeholder
text and then a user turn carrying the data URI and an explanatory caption —
while a plain single output such as `"hello"` appends exactly one output
turn. -/
theorem tool_output_image_turn_shape (call_id s : String)
    (h : py_startswith s "base64," = true) :
    append_tool_result call_id [s] =
      [Turn.function_call_output call_id
         "Image passed in the next message as an input_image",
       Turn.user_image ("Image returned by function with call id " ++ call_id)
         ("data:image/png;" ++ s)]
    ∧ append_tool_result call_id ["hello"] =
      [Turn.function_call_output call_id "hello"] := by
  constructor
  · simp [append_tool_result, join_tool_output, h]
  · rfl

/-- C3 witness at the output `"base64,AAAA"`. -/
theorem tool_output_image_turn_shape_witness :
    py_startswith "base64,AAAA" "base64," = true
    ∧ (append_tool_result "call_1" ["base64,AAAA"] =
        [Turn.function_call_output "call_1"
           "Image passed in the next message as an input_image",
         Turn.user_image ("Image returned by function with call id " ++ "call_1")
           ("data:image/png;" ++ "base64,AAAA")]
      ∧ append_tool_result "call_1" ["hello"] =
        [Turn.function_call_output "call_1" "hello"]) :=
  ⟨by decide, tool_output_image_turn_shape "call_1" "base64,AAAA" (by decide)⟩

/-- C9: a tool result with two or more text pieces is folded into the single
bracketed comma-joined string before the base64 check, so it is never
detected as an image and exactly one plain output turn is appended. -/
theorem multi_part_tool_output_not_image (call_id : String) (texts : List String)
    (h : 2 ≤ texts.length) :
    append_tool_result call_id texts =
      [Turn.function_call_output call_id
        ("[" ++ String.intercalate ", " texts ++ "]")] := by
  match texts, h with
  | a :: b :: rest, _ =>
    have hjoin : join_tool_output (a :: b :: rest) =
        "[" ++ String.intercalate ", " (a :: b :: rest) ++ "]" := rfl
    simp [append_tool_result, hjoin, py_startswith_bracket]

/-- C9 witness: a two-part result, the second part being a base64 payload,
still yields one plain output turn. -/
theorem multi_part_tool_output_not_image_witness :
    2 ≤ (["ok", "base64,AAAA"] : List String).length
    ∧ append_tool_result "call_2" ["ok", "base64,AAAA"] =
        [Turn.function_call_output "call_2"
          ("[" ++ String.intercalate ", " ["ok", "base64,AAAA"] ++ "]")] :=
  ⟨by decide, multi_part_tool_output_not_image "call_2" ["ok", "base64,AAAA"] (by decide)⟩

/-! ### Depth-limited HTML extraction lemmas -/

theorem forestHeight_le (c : Nat) : ∀ l : List HtmlNode,
    (∀ x ∈ l, nodeHeight x ≤ c) → forestHeight l ≤ c := by
  intro l
  induction l with
  | nil => intro _; simp [forestHeight]
  | cons x xs ih =>
    intro h
    rw [forestHeight]
    have h1 := h x (by simp)
    have h2 := ih (fun y hy => h y (by simp [hy]))
    omega

theorem trim_height_bound : ∀ fuel : Nat,
    (∀ n : HtmlNode, sizeOf n ≤ fuel → ∀ (d : Int) (t : HtmlNode),
      trim_html_tag_to_depth n d = some t → (nodeHeight t : Int) ≤ d) ∧
    (∀ l : List HtmlNode, sizeOf l ≤ fuel → ∀ (d : Int) (t : HtmlNode),
      t ∈ trim_html_children l d → (nodeHeight t : Int) ≤ d) := by
  intro fuel
  induction fuel using Nat.strong_induction_on with
  | _ fuel ih =>
    constructor
    · intro n hsize d t ht
      rw [trim_html_tag_to_depth.eq_def] at ht
      by_cases hd : d ≤ 0
      · simp [hd] at ht
      · simp only [hd, if_false] at ht
        match n, ht with
        | .text s, ht =>
          simp only [Option.some.injEq] at ht
          subst ht
          simp only [nodeHeight]
          omega
        | .tag name attrs children, ht =>
          simp only [Option.some.injEq] at ht
          subst ht
          rw [nodeHeight]
          by_cases h1 : 1 < d
          · simp only [h1, if_true]
            have hcs : sizeOf children < sizeOf (HtmlNode.tag name attrs children) := by
              simp <;> omega
            have part2 := (ih (sizeOf children) (by omega)).2 children (le_refl _) (d - 1)
            have hbound : forestHeight (trim_html_children children (d - 1)) ≤ (d - 1).toNat := by
              apply forestHeight_le
              intro x hx
              have hx2 := part2 x hx
              omega
            have hcast : ((d - 1).toNat : Int) = d - 1 := by omega
            omega
          · simp only [h1, if_false]
            simp only [forestHeight]
            omega
    · intro l hsize d t ht
      match l with
      | [] => simp [trim_html_children] at ht
      | c :: rest =>
        rw [trim_html_children] at ht
        have hcsize : sizeOf c < sizeOf (c :: rest) := by simp <;> omega
        have hrsize : sizeOf rest < sizeOf (c :: rest) := by simp <;> omega
        cases hcase : trim_html_tag_to_depth c d with
        | none =>
          rw [hcase] at ht
          exact (ih (sizeOf rest) (by omega)).2 rest (le_refl _) d t ht
        | some t2 =>
          rw [hcase] at ht
          by_cases htr : truthy t2
          · simp only [htr, if_true, List.mem_cons] at ht
            cases ht with
            | inl heq =>
              subst heq
              exact (ih (sizeOf c) (by omega)).1 c (le_refl _) d t hcase
            | inr hmem =>
              exact (ih (sizeOf rest) (by omega)).2 rest (le_refl _) d t hmem
          · simp only [htr, if_false] at ht
            exact (ih (sizeOf rest) (by omega)).2 rest (le_refl _) d t ht

/-- C4: for every document and depth `d ≥ 0`, `extract_html_to_depth` keeps
no node of nesting height above `d`; depth `0` yields an empty result; and
unlimited (`None`) depth yields the structurally equal original document. -/
theorem extract_html_to_depth_spec (contents : List HtmlNode) (d : Int)
    (_hd : 0 ≤ d) :
    (∀ n ∈ extract_html_to_depth contents (some d), (nodeHeight n : Int) ≤ d)
    ∧ extract_html_to_depth contents (some 0) = []
    ∧ extract_html_to_depth contents none = contents := by
  refine ⟨?_, ?_, rfl⟩
  · intro n hn
    rw [extract_html_to_depth] at hn
    rw [List.mem_filterMap] at hn
    obtain ⟨c, _, hc⟩ := hn
    cases hcase : trim_html_tag_to_depth c d with
    | none => rw [hcase] at hc; simp at hc
    | some t =>
      rw [hcase] at hc
      by_cases htr : truthy t
      · simp only [htr, if_true, Option.some.injEq] at hc
        exact hc ▸ (trim_height_bound (sizeOf c)).1 c (le_refl _) d t hcase
      · simp [htr] at hc
  · rw [extract_html_to_depth]
    apply List.filterMap_eq_nil_iff.mpr
    intro c _
    rw [trim_html_tag_to_depth.eq_def]
    simp

/-- C4 witness at a concrete document and depth 1. -/
theorem extract_html_to_depth_spec_witness :
    (0 : Int) ≤ 1
    ∧ (extract_html_to_depth example_contents (some 0) = []
      ∧ extract_html_to_depth example_contents none = example_contents) :=
  ⟨by decide, (extract_html_to_depth_spec example_contents 1 (by decide)).2⟩

/-! ### XPath segment lemmas -/

theorem prev_count_strict (name : String) :
    ∀ (siblings : List HtmlNode) (i j : Nat), i < j →
    ∀ x, siblings[i]? = some x → matches_tag_name name x = true →
    prev_siblings_same_tag siblings i name < prev_siblings_same_tag siblings j name := by
  intro siblings
  induction siblings with
  | nil => intro i j hij x hx _; simp at hx
  | cons c rest ih =>
    intro i j hij x hx hmx
    match i, j with
    | 0, j + 1 =>
      simp at hx
      subst hx
      unfold prev_siblings_same_tag
      simp [List.take, List.filter, hmx]
    | i + 1, j + 1 =>
      simp at hx
      have hrec := ih i j (by omega) x hx hmx
      unfold prev_siblings_same_tag at hrec ⊢
      simp only [List.take, List.filter]
      cases hc : matches_tag_name name c <;> simp [hc] <;> omega

/-- C5 (amended): two distinct same-named sibling tags always receive
different path segments; a node with no same-named sibling at any other
position gets a predicate-free segment; and the 1-based positional predicate
`tag[n]` appears exactly when same-named siblings precede the node (a later
same-named sibling leaves the segment predicate-free, see the
counterexample). -/
theorem build_xpath_segment_spec (siblings : List HtmlNode) (i j : Nat)
    (name : String) (x y : HtmlNode) :
    (i < j → siblings[i]? = some x → matches_tag_name name x = true →
      siblings[j]? = some y → matches_tag_name name y = true →
      xpath_segment siblings i name ≠ xpath_segment siblings j name)
    ∧ ((∀ (k : Nat) (z : HtmlNode), k ≠ i → siblings[k]? = some z →
          matches_tag_name name z = false) →
        xpath_segment siblings i name = name)
    ∧ (prev_siblings_same_tag siblings i name = 0 →
        xpath_segment siblings i name = name)
    ∧ (prev_siblings_same_tag siblings i name ≠ 0 →
        xpath_segment siblings i name =
          name ++ "[" ++ toString (prev_siblings_same_tag siblings i name + 1) ++ "]") := by
  have hzero : prev_siblings_same_tag siblings i name = 0 →
      xpath_segment siblings i name = name := by
    intro h0
    unfold xpath_segment
    simp only [ne_eq, h0, not_true_eq_false, ite_false]
    exact String.append_empty name
  have hpred : prev_siblings_same_tag siblings i name ≠ 0 →
      xpath_segment siblings i name =
        name ++ "[" ++ toString (prev_siblings_same_tag siblings i name + 1) ++ "]" := by
    intro h0
    unfold xpath_segment
    simp only [ne_eq, h0, not_false_eq_true, ite_true]
    rw [← String.append_assoc, ← String.append_assoc]
  refine ⟨?_, ?_, hzero, hpred⟩
  · intro hij hx hmx _ _
    have hlt := prev_count_strict name siblings i j hij x hx hmx
    intro heq
    unfold xpath_segment at heq
    simp only [ne_eq] at heq
    set ci := prev_siblings_same_tag siblings i name with hci
    set cj := prev_siblings_same_tag siblings j name with hcj
    have hzj : cj ≠ 0 := by omega
    by_cases hzi : ci = 0
    · rw [if_neg (not_not_intro hzi), if_pos (by omega : ¬ cj = 0)] at heq
      have hdata := congrArg String.data heq
      simp only [String.data_append] at hdata
      have h1 := List.append_cancel_left hdata
      simp at h1
    · rw [if_pos (by omega : ¬ ci = 0), if_pos (by omega : ¬ cj = 0)] at heq
      have hdata := congrArg String.data heq
      simp only [String.data_append] at hdata
      have h1 := List.append_cancel_left hdata
      have h2 := List.append_cancel_right h1
      have h3 := List.append_cancel_left h2
      have h4 : toString (ci + 1) = toString (cj + 1) := String.ext h3
      have h5 := natToString_injective (ci + 1) (cj + 1) h4
      omega
  · intro hnone
    apply hzero
    unfold prev_siblings_same_tag
    rw [List.length_eq_zero]
    rw [List.filter_eq_nil_iff]
    intro z hz
    rw [List.mem_iff_getElem?] at hz
    obtain ⟨k, hk⟩ := hz
    have hklt : k < i := by
      by_contra hge
      have hlen : (siblings.take i).length ≤ k := by
        have := List.length_take_le i siblings
        omega
      rw [List.getElem?_eq_none hlen] at hk
      exact Option.noConfusion hk
    rw [List.getElem?_take_of_lt hklt] at hk
    have := hnone k z (by omega) hk
    simp [this]

/-- C5 counterexample refuting the claim as stated: in a sibling list of two
`p` tags, the first node has a same-named sibling (at position 1), yet its
segment is the bare `"p"` with no positional predicate — the predicate
appears only when same-named siblings precede the node. -/
theorem xpath_segment_claim_counterexample :
    example_siblings[1]? = some (HtmlNode.tag "p" [] [])
    ∧ matches_tag_name "p" (HtmlNode.tag "p" [] []) = true
    ∧ xpath_segment example_siblings 0 "p" = "p" :=
  ⟨rfl, rfl, rfl⟩

/-- C5 witness: the two `p` siblings receive distinct segments, and both
forms of the amended predicate rule hold concretely. -/
theorem build_xpath_segment_spec_witness :
    (0 : Nat) < 1
    ∧ example_siblings[0]? = some (HtmlNode.tag "p" [] [])
    ∧ matches_tag_name "p" (HtmlNode.tag "p" [] []) = true
    ∧ xpath_segment example_siblings 0 "p" ≠ xpath_segment example_siblings 1 "p" :=
  ⟨by decide, rfl, rfl,
    (build_xpath_segment_spec example_siblings 0 1 "p"
      (HtmlNode.tag "p" [] []) (HtmlNode.tag "p" [] [])).1
      (by decide) rfl rfl rfl rfl⟩

/-! ### Page-summary pagination lemmas -/

theorem join_pages_eq {α : Type} (m : Nat) :
    ∀ (k : Nat) (l : List α), l.length ≤ k * m →
    ((List.range k).map (fun j => ((l.drop (j * m)).take m))).flatten = l := by
  intro k
  induction k with
  | zero =>
    intro l hl
    simp at hl
    simp [hl]
  | succ k ih =>
    intro l hl
    rw [List.range_succ_eq_map]
    simp only [List.map_cons, List.map_map, List.flatten_cons]
    have hmap : (List.map ((fun j => (l.drop (j * m)).take m) ∘ Nat.succ) (List.range k))
        = List.map (fun j => (((l.drop m).drop (j * m)).take m)) (List.range k) := by
      apply List.map_congr_left
      intro j _
      simp only [Function.comp_apply, Nat.succ_eq_add_one]
      rw [List.drop_drop]
      congr 2
      ring
    have hlen : (l.drop m).length ≤ k * m := by
      have hx : (k + 1) * m = k * m + m := by ring
      simp only [List.length_drop]
      omega
    rw [hmap, ih (l.drop m) hlen]
    simp

theorem ceil_div_mul_ge (n m : Nat) (hm : 0 < m) : n ≤ ((n + m - 1) / m) * m := by
  have h1 := Nat.div_add_mod (n + m - 1) m
  have h2 : (n + m - 1) % m < m := Nat.mod_lt _ hm
  rw [Nat.mul_comm]
  omega

theorem assign_indices_length (total : Nat) :
    ∀ (i : Nat) (l : List SummaryEntry), (assign_indices total i l).length = l.length := by
  intro i l
  induction l generalizing i with
  | nil => rfl
  | cons e rest ih => simp [assign_indices, ih]

theorem assign_indices_get_index (total : Nat) :
    ∀ (l : List SummaryEntry) (i k : Nat) (hk : k < (assign_indices total i l).length),
    ((assign_indices total i l).get ⟨k, hk⟩).index =
      toString (i + k + 1) ++ "/" ++ toString total := by
  intro l
  induction l with
  | nil => intro i k hk; simp [assign_indices] at hk
  | cons e rest ih =>
    intro i k hk
    match k with
    | 0 => simp [assign_indices]
    | k + 1 =>
      have hlen2 : (assign_indices total (i + 1) rest).length = rest.length :=
        assign_indices_length total (i + 1) rest
      have hlen1 : (assign_indices total i (e :: rest)).length = rest.length + 1 := by
        simp [assign_indices, hlen2]
      have hk2 : k < (assign_indices total (i + 1) rest).length := by omega
      have hrec := ih (i + 1) k hk2
      simp only [assign_indices, List.get_cons_succ]
      rw [hrec]
      have harith : i + 1 + k + 1 = i + (k + 1) + 1 := by omega
      rw [harith]

theorem summarize_index_eq (doc : List FoundTag) (visible : String → Bool)
    (filter_type : String) (only_visible_elements : Bool) :
    ∀ k (hk : k < (summarize_forms_buttons_links_and_text doc visible filter_type
        only_visible_elements).length),
    ((summarize_forms_buttons_links_and_text doc visible filter_type
        only_visible_elements).get ⟨k, hk⟩).index =
      toString (k + 1) ++ "/" ++
        toString (summarize_forms_buttons_links_and_text doc visible filter_type
          only_visible_elements).length := by
  intro k hk
  unfold summarize_forms_buttons_links_and_text at hk ⊢
  rw [assign_indices_get_index, assign_indices_length]
  have harith : 0 + k + 1 = k + 1 := by omega
  rw [harith]

/-- C1: for a fixed document, visibility oracle and options, the pages
returned by `get_page_summary` for `skip_elements = 0, m, 2m, ...` (up to
the last nonempty page) concatenate to exactly the full filtered-and-ordered
summary — no gaps, no duplicates — and every entry of that summary carries
the index `"k/total"` where `k` is its 1-based position in the
filtered-and-ordered set and `total` is the filtered set size, hence `total`
is identical across all pages. -/
theorem get_page_summary_paginates (doc : List FoundTag) (visible : String → Bool)
    (filter_type : String) (only_visible_elements : Bool) (m : Nat) (hm : 0 < m) :
    (((List.range
        (((summarize_forms_buttons_links_and_text doc visible filter_type
            only_visible_elements).length + m - 1) / m)).map
        (fun j => get_page_summary doc visible (j * m) m filter_type
          only_visible_elements)).flatten
      = summarize_forms_buttons_links_and_text doc visible filter_type
          only_visible_elements)
    ∧ ∀ k (hk : k < (summarize_forms_buttons_links_and_text doc visible filter_type
          only_visible_elements).length),
        ((summarize_forms_buttons_links_and_text doc visible filter_type
            only_visible_elements).get ⟨k, hk⟩).index =
          toString (k + 1) ++ "/" ++
            toString (summarize_forms_buttons_links_and_text doc visible filter_type
              only_visible_elements).length := by
  constructor
  · have h := join_pages_eq m
      (((summarize_forms_buttons_links_and_text doc visible filter_type
          only_visible_elements).length + m - 1) / m)
      (summarize_forms_buttons_links_and_text doc visible filter_type
        only_visible_elements)
      (ceil_div_mul_ge _ m hm)
    simpa [get_page_summary] using h
  · exact summarize_index_eq doc visible filter_type only_visible_elements

/-- C1 witness: a concrete three-element document paginated with page size 2. -/
theorem get_page_summary_paginates_witness :
    0 < 2
    ∧ (((List.range
        (((summarize_forms_buttons_links_and_text example_doc (fun _ => true) ""
            false).length + 2 - 1) / 2)).map
        (fun j => get_page_summary example_doc (fun _ => true) (j * 2) 2 "" false)).flatten
      = summarize_forms_buttons_links_and_text example_doc (fun _ => true) "" false) :=
  ⟨by decide,
   (get_page_summary_paginates example_doc (fun _ => true) "" false 2 (by decide)).1⟩

/-! ### Locator validation lemmas -/

/-- C6 (amended): with an unsupported strategy, every operation returns a
normal value without raising — `click`, `type_text`, `clear_text`,
`get_element_text` and `get_element_attribute` return the descriptive
invalid-strategy string, `find_elements` returns a single error entry
carrying that string, while `count_elements` returns the sentinel `-1` and
`element_exists` returns `false` (sentinels, not descriptive strings) — and
the result is independent of any driver interaction, which never happens. -/
theorem invalid_by_results (locator text_ attr_name by_ : String)
    (clear press_enter is_password : Bool)
    (w1 w2 w3 w4 : WaitOutcome) (ao : AttrOutcome) (fo : FindOutcome)
    (co : CountOutcome) (eo : ExistsOutcome) (max_elements skip_elements : Nat)
    (h : BY_OPTIONS.contains by_ = false) :
    click locator by_ w1 = invalid_by_message by_
    ∧ type_text locator text_ clear press_enter is_password by_ w2 = invalid_by_message by_
    ∧ clear_text locator by_ w3 = invalid_by_message by_
    ∧ get_element_text locator by_ w4 = invalid_by_message by_
    ∧ get_element_attribute locator attr_name by_ ao = invalid_by_message by_
    ∧ find_elements locator by_ max_elements skip_elements fo =
        [[("error", invalid_by_message by_)]]
    ∧ count_elements locator by_ co = -1
    ∧ element_exists locator by_ eo = false := by
  refine ⟨?_, ?_, ?_, ?_, ?_, ?_, ?_, ?_⟩ <;>
    simp only [click, type_text, clear_text, get_element_text, get_element_attribute,
      find_elements, count_elements, element_exists, h, Bool.not_false, if_true]

/-- C6 counterexample refuting the claim as stated: with the unsupported
strategy `"bogus"`, `count_elements` returns the integer sentinel `-1` (even
though the driver would have counted 5 elements) and `element_exists`
returns `false` — not a user-visible string describing the invalid
strategy. -/
theorem invalid_by_claim_counterexample :
    count_elements "div" "bogus" (CountOutcome.counted 5) = -1
    ∧ element_exists "div" "bogus" ExistsOutcome.found = false := by
  constructor <;> rfl

/-- C6 witness for the amended statement at the strategy `"bogus"`. -/
theorem invalid_by_results_witness :
    BY_OPTIONS.contains "bogus" = false
    ∧ (click "div" "bogus" WaitOutcome.timeout = invalid_by_message "bogus"
      ∧ type_text "div" "hi" true false false "bogus" WaitOutcome.timeout =
          invalid_by_message "bogus"
      ∧ clear_text "div" "bogus" WaitOutcome.timeout = invalid_by_message "bogus"
      ∧ get_element_text "div" "bogus" WaitOutcome.timeout = invalid_by_message "bogus"
      ∧ get_element_attribute "div" "href" "bogus" AttrOutcome.timeout =
          invalid_by_message "bogus"
      ∧ find_elements "div" "bogus" 10 0 FindOutcome.timeout =
          [[("error", invalid_by_message "bogus")]]
      ∧ count_elements "div" "bogus" (CountOutcome.counted 3) = -1
      ∧ element_exists "div" "bogus" ExistsOutcome.missing = false) :=
  ⟨by decide,
   invalid_by_results "div" "hi" "href" "bogus" true false false
     WaitOutcome.timeout WaitOutcome.timeout WaitOutcome.timeout WaitOutcome.timeout
     AttrOutcome.timeout FindOutcome.timeout (CountOutcome.counted 3)
     ExistsOutcome.missing 10 0 (by decide)⟩

/-! ### Recording round-trip lemmas -/

theorem decode_encode_jval (v : JVal) : decode_jval (encode_jval v) = some v := by
  cases v <;> rfl

theorem decode_encode_fields (args : List (String × JVal)) :
    decode_fields (args.map (fun kv => (kv.1, encode_jval kv.2))) = some args := by
  induction args with
  | nil => rfl
  | cons kv rest ih =>
    simp only [List.map_cons, decode_fields, decode_encode_jval, ih]

theorem decode_encode_action (a : RecordedAction) :
    decode_action (encode_action a) = some a := by
  match a with
  | (name, args) =>
    simp only [encode_action, decode_action, decode_encode_fields]
    rfl

theorem decode_actions_map_encode (seq : List RecordedAction) :
    decode_actions (seq.map encode_action) = some seq := by
  induction seq with
  | nil => rfl
  | cons a rest ih =>
    simp only [List.map_cons, decode_actions, decode_encode_action, ih]

theorem load_dump_recording (seq : List RecordedAction) :
    load_sequence (dump_recording seq) = some seq :=
  decode_actions_map_encode seq

/-- C7: saving a recorded sequence of three actions and loading the produced
file restores exactly the original three actions in their original order
(for either value of the save-time reset flag and any remembered last
action). -/
theorem save_load_roundtrip (a1 a2 a3 : RecordedAction)
    (last : Option RecordedAction) (reset : Bool) :
    (load_recording
        (save_recording reset { sequence_recorded := [a1, a2, a3], last_action := last }).1
        (save_recording reset { sequence_recorded := [a1, a2, a3], last_action := last }).2
      ).sequence_recorded = [a1, a2, a3] := by
  unfold save_recording load_recording
  simp only [load_dump_recording]

/-! ### Replay lemmas -/

theorem play_recording_go_ok (exec : RecordedAction → Except String Unit) (delay : ℚ) :
    ∀ (seq : List RecordedAction) (trace : List PlayEvent),
    (∀ a ∈ seq, exec a = .ok ()) →
    play_recording_go exec delay seq trace =
      (trace ++ (seq.map (play_step_events delay)).flatten, "Recording has been played") := by
  intro seq
  induction seq with
  | nil => intro trace _; simp [play_recording_go]
  | cons a rest ih =>
    intro trace hall
    rw [play_recording_go]
    rw [hall a (by simp)]
    rw [ih (trace ++ play_step_events delay a) (fun b hb => hall b (by simp [hb]))]
    simp

theorem play_recording_go_fail (exec : RecordedAction → Except String Unit) (delay : ℚ)
    (bad : RecordedAction) (e : String) (post : List RecordedAction) :
    ∀ (pre : List RecordedAction) (trace : List PlayEvent),
    (∀ b ∈ pre, exec b = .ok ()) → exec bad = .error e →
    play_recording_go exec delay (pre ++ bad :: post) trace =
      (trace ++ (pre.map (play_step_events delay)).flatten,
        "Error playing recording: " ++ e) := by
  intro pre
  induction pre with
  | nil =>
    intro trace _ hbad
    simp only [List.nil_append, play_recording_go, hbad, List.map_nil,
      List.flatten_nil, List.append_nil]
  | cons b rest ih =>
    intro trace hall hbad
    rw [List.cons_append, play_recording_go]
    rw [hall b (by simp)]
    rw [ih (trace ++ play_step_events delay b) (fun c hc => hall c (by simp [hc])) hbad]
    simp

/-- C8 (amended): replay executes the recorded pairs in original order,
interleaving a sleep after each step when the delay is positive; when every
step succeeds all steps run and the success message is returned; when a step
raises, replay stops at that step — the effects of the already-executed
steps remain in the trace, no later step runs — and the returned result
carries the underlying cause (but does not identify which step failed, see
the counterexample). -/
theorem play_recording_spec (exec : RecordedAction → Except String Unit) (delay : ℚ)
    (seq pre post : List RecordedAction) (bad : RecordedAction) (e : String) :
    ((∀ a ∈ seq, exec a = .ok ()) →
      play_recording exec delay seq =
        ((seq.map (play_step_events delay)).flatten, "Recording has been played"))
    ∧ ((∀ b ∈ pre, exec b = .ok ()) → exec bad = .error e →
      play_recording exec delay (pre ++ bad :: post) =
        ((pre.map (play_step_events delay)).flatten, "Error playing recording: " ++ e)) := by
  constructor
  · intro hall
    have h := play_recording_go_ok exec delay seq [] hall
    simpa [play_recording] using h
  · intro hall hbad
    have h := play_recording_go_fail exec delay bad e post pre [] hall hbad
    simpa [play_recording] using h

/-- C8 counterexample refuting the step-reporting part of the claim: two
replays failing at different steps (the first and the second) return the
identical result string, which therefore cannot report the failing step. -/
theorem play_recording_claim_counterexample :
    (play_recording replay_exec_example 0 [("bad", []), ("go_to", [])]).2 =
      "Error playing recording: boom"
    ∧ (play_recording replay_exec_example 0 [("go_to", []), ("bad", [])]).2 =
      "Error playing recording: boom" := by
  constructor <;> rfl

/-- C8 witness: a concrete successful replay and a concrete aborted replay. -/
theorem play_recording_spec_witness :
    replay_exec_example ("go_to", []) = .ok ()
    ∧ replay_exec_example ("bad", []) = .error "boom"
    ∧ play_recording replay_exec_example 0 [("go_to", [])] =
        (([("go_to", [])].map (play_step_events 0)).flatten, "Recording has been played")
    ∧ play_recording replay_exec_example 0 ([("go_to", [])] ++ ("bad", []) :: [("back", [])]) =
        (([("go_to", [])].map (play_step_events 0)).flatten,
          "Error playing recording: " ++ "boom") :=
  ⟨rfl, rfl,
   (play_recording_spec replay_exec_example 0 [("go_to", [])] [("go_to", [])]
       [("back", [])] ("bad", []) "boom").1
     (by intro a ha; simp at ha; subst ha; rfl),
   (play_recording_spec replay_exec_example 0 [("go_to", [])] [("go_to", [])]
       [("back", [])] ("bad", []) "boom").2
     (by intro b hb; simp at hb; subst hb; rfl) rfl⟩

/-! ### Browser-change lemmas -/

/-- C10: `change_browser` with an unsupported browser name returns the
invalid-browser error string and leaves the server state entirely unchanged:
the configured browser keeps its previous value and a live driver session is
not quit, because validation happens before any teardown. -/
theorem change_browser_invalid_noop (st : ServerState) (browser : String)
    (h : BROWSER_OPTIONS.contains browser = false) :
    change_browser st browser =
      (st, "Invalid browser: " ++ browser ++ ". Must be one of: " ++
        String.intercalate ", " BROWSER_OPTIONS)
    ∧ (change_browser st browser).1.browser = st.browser
    ∧ (change_browser st browser).1.driver = st.driver := by
  have hmain : change_browser st browser =
      (st, "Invalid browser: " ++ browser ++ ". Must be one of: " ++
        String.intercalate ", " BROWSER_OPTIONS) := by
    simp only [change_browser, h, Bool.not_false, if_true]
  exact ⟨hmain, by rw [hmain], by rw [hmain]⟩

/-- C10 witness: an unsupported name with a live driver session. -/
theorem change_browser_invalid_noop_witness :
    BROWSER_OPTIONS.contains "netscape" = false
    ∧ change_browser { browser := "chrome", driver := some 7 } "netscape" =
        ({ browser := "chrome", driver := some 7 },
          "Invalid browser: " ++ "netscape" ++ ". Must be one of: " ++
            String.intercalate ", " BROWSER_OPTIONS) :=
  ⟨by decide,
   (change_browser_invalid_noop { browser := "chrome", driver := some 7 }
     "netscape" (by decide)).1⟩
